import Mathlib

/-!
A shallow embedding of the forecast consolidation engine of the
signalk-tides plugin, together with proofs about it.

Conventions of the embedding:
* JS numbers that hold tide heights, distances (meters), radii (nautical
  miles) and configuration values are modelled as `ℚ` in ideal (exact)
  arithmetic; timestamps (`Date.getTime()` milliseconds) as `ℤ`.
* `Math.cos`/`Math.PI` are modelled by the exact real functions
  (`Real.cos`, `Real.pi`); the final `parseFloat(x.toFixed(3))` rounding
  is modelled by `jsToFixed3`.
* The one JS `NaN` that the interpolation code can produce (the `0/0`
  progress when the two bracketing extremes coincide) is modelled by an
  explicit `HeightResult.nan` constructor; a thrown exception by
  `HeightResult.err`.
* JS `Array.prototype.sort` with a numeric comparator is a stable sort;
  it is modelled by `List.insertionSort` (also stable) on the same key.
* Network calls (`provider`, NOAA catalog and per-station requests) and
  the geodesic distance function (`geolib.getDistance`) are parameters
  of the functions that call them.
-/

namespace SignalkTides

/-! ## Data model (src/types.ts) -/

/-- `TideExtremeType` from src/types.ts: `"High" | "Low"`. -/
inductive TideType where
  | High
  | Low
deriving DecidableEq

/-- A latitude/longitude pair in degrees (the shape `geolib.getDistance`
and the station records use). -/
structure GeoPos where
  latitude : ℚ
  longitude : ℚ
deriving DecidableEq

/-- `TideExtreme` from src/types.ts; `time` is the instant in epoch
milliseconds (`new Date(time).getTime()`). -/
structure TideExtreme where
  time : ℤ
  value : ℚ
  type : TideType
deriving DecidableEq

/-- The `station` field of `TideForecastResult`. -/
structure TideStation where
  name : String
  position : GeoPos
deriving DecidableEq

/-- `TideForecastResult` from src/types.ts (the optional `datum` tag is
not needed by the verified functions). -/
structure TideForecastResult where
  station : TideStation
  extremes : List TideExtreme
deriving DecidableEq

/-! ## Height interpolation (src/calculations.ts, cited as src/cache.ts
lines 30-56) -/

/-- The sort in `approximateTideHeightAt`:
`extremes.slice().sort((a, b) => new Date(a.time).getTime() - new Date(b.time).getTime())`.
JS sort is stable, so a stable insertion sort on the same key models it. -/
def sortedByTime (extremes : List TideExtreme) : List TideExtreme :=
  List.insertionSort (fun a b => a.time ≤ b.time) extremes

/-- `sorted.filter(h => new Date(h.time) <= time).at(-1)`. -/
def tidePrev (extremes : List TideExtreme) (t : ℤ) : Option TideExtreme :=
  ((sortedByTime extremes).filter (fun h => decide (h.time ≤ t))).getLast?

/-- `sorted.filter(h => new Date(h.time) >= time).at(0)`. -/
def tideNext (extremes : List TideExtreme) (t : ℤ) : Option TideExtreme :=
  ((sortedByTime extremes).filter (fun h => decide (t ≤ h.time))).head?

/-- `interpolate(start, end, progress)` from src/calculations.ts. -/
def interpolate (start stop progress : ℝ) : ℝ :=
  start + (stop - start) * progress

/-- `easeSine(progress)` from src/calculations.ts:
`(1 - Math.cos(progress * Math.PI)) / 2`. -/
noncomputable def easeSine (progress : ℝ) : ℝ :=
  (1 - Real.cos (progress * Real.pi)) / 2

/-- `parseFloat(value.toFixed(3))`: round to the nearest multiple of
1/1000, ties away from zero for the positive values at hand (the
ECMAScript `toFixed` picks the larger candidate on a tie). -/
noncomputable def jsToFixed3 (x : ℝ) : ℚ :=
  (⌊1000 * x + 1 / 2⌋ : ℤ) / 1000

/-- Result of `approximateTideHeightAt`: a thrown error, the JS `NaN`
produced by a `0/0` progress, or an ordinary number. -/
inductive HeightResult where
  | err (msg : String)
  | nan
  | val (q : ℚ)
deriving DecidableEq

/-- `approximateTideHeightAt(extremes, time)` from src/calculations.ts.
When the two bracketing extremes coincide (an extreme lies exactly at
`time`), the JS code computes `progress = 0/0 = NaN`, which propagates
through `easeSine`, `interpolate` and `toFixed` to a `NaN` return value;
that case is the `.nan` branch here. -/
noncomputable def approximateTideHeightAt (extremes : List TideExtreme) (t : ℤ) : HeightResult :=
  match tidePrev extremes t, tideNext extremes t with
  | none, _ => .err "Missing height data before"
  | some _, none => .err "Missing height data after"
  | some p, some n =>
    if n.time - p.time = 0 then .nan
    else .val (jsToFixed3 (interpolate (p.value : ℝ) (n.value : ℝ)
      (easeSine (((t - p.time : ℤ) : ℝ) / ((n.time - p.time : ℤ) : ℝ)))))

/-! ## Datum estimation (src/datum.ts lines 57-71) -/

/-- The list `lows.map(e => e.value)` where
`lows = forecast.extremes.filter(e => e.type === 'Low')`. -/
def lowValues (f : TideForecastResult) : List ℚ :=
  (f.extremes.filter (fun e => decide (e.type = TideType.Low))).map (fun e => e.value)

/-- `estimateMllwOffset(forecast)` from src/datum.ts: 0 when there are no
Low extremes; otherwise `Math.abs(lowestLow) + 0.2` when the lowest Low
is negative, else 0. `vs.foldl min v` is `Math.min(v, ...vs)`. -/
def estimateMllwOffset (f : TideForecastResult) : ℚ :=
  match lowValues f with
  | [] => 0
  | v :: vs =>
    let lowestLow := vs.foldl min v
    if lowestLow < 0 then |lowestLow| + 1 / 5 else 0

/-! ## Forecast orchestrator and station selector (src/index.ts lines
271-383, `plugin.start` / `updateForecast`) -/

/-- The orchestrator's held state: the mutable `lastForecast` and
`preferredStation` variables of `plugin.start`. -/
structure HeldState where
  lastForecast : Option TideForecastResult
  preferredStation : Option TideStation
deriving DecidableEq

/-- What `updateForecast` reports: `app.setPluginStatus(...)` on success,
`app.setPluginError(message)` on a caught exception. -/
inductive PluginStatus where
  | ok (msg : String)
  | error (msg : String)
deriving DecidableEq

/-- One cycle of `updateForecast` (src/index.ts lines 337-383) as a pure
transition. `dist` is `geolib.getDistance` (meters), `fetchResult` the
outcome of `await provider({position})` (`.error` when it throws),
`stationSwitchThreshold` the configured `props.stationSwitchThreshold`
in km (`none` when unset, defaulted to 10). Returns the new held state
and the reported status. -/
def updateForecast (dist : GeoPos → GeoPos → ℚ) (sourceTitle : String)
    (stationSwitchThreshold : Option ℚ) (lastPosition : GeoPos)
    (fetchResult : Except String TideForecastResult) (s : HeldState) :
    HeldState × PluginStatus :=
  match fetchResult with
  | .error e => (s, .error e)
  | .ok newForecast =>
    let threshold := (stationSwitchThreshold.getD 10) * 1000
    let adopted : HeldState :=
      { lastForecast := some newForecast, preferredStation := some newForecast.station }
    let okStatus := PluginStatus.ok ("Updated tide forecast from " ++ sourceTitle)
    match s.preferredStation with
    | some preferred =>
      if 0 < threshold then
        let distanceToPreferred := dist lastPosition preferred.position
        let distanceToNew := dist lastPosition newForecast.station.position
        if distanceToNew < distanceToPreferred - threshold then (adopted, okStatus)
        else (s, okStatus)
      else (adopted, okStatus)
    | none => (adopted, okStatus)

/-! ## Tide state emitter (src/index.ts lines 385-424, `updateTides`) -/

/-- The delta `updateTides` hands to `app.handleMessage`: the
`environment.tide.stationName` value, the `environment.tide.heightNow`
value (`none` models a `NaN` height), and the first two upcoming
extremes, each of which contributes its `height{type}`/`time{type}`
pair. -/
structure TideDelta where
  timestamp : ℤ
  stationName : String
  heightNow : Option ℚ
  nextTides : List TideExtreme
deriving DecidableEq

/-- Outcome of one `updateTides` tick: the early return when no forecast
is held, the exception `approximateTideHeightAt` throws while the delta
is being built (so nothing is emitted), or an emitted delta. -/
inductive EmitResult where
  | noForecast
  | threw (msg : String)
  | emitted (delta : TideDelta)

/-- One tick of `updateTides(now)` (src/index.ts lines 385-424). It
builds and emits a delta on every tick at which a forecast is held —
there is no change-detection fingerprint in this function. -/
noncomputable def updateTides (s : HeldState) (now : ℤ) : EmitResult :=
  match s.lastForecast with
  | none => .noForecast
  | some f =>
    let nextTides := (f.extremes.filter (fun e => decide (now ≤ e.time))).take 2
    match approximateTideHeightAt f.extremes now with
    | .err m => .threw m
    | .nan => .emitted ⟨now, f.station.name, none, nextTides⟩
    | .val q => .emitted ⟨now, f.station.name, some q, nextTides⟩

/-- Modelled from the spec: the change-detection fingerprint
`(stationName, nextLowTime, nextHighTime)` of §4.6 of the spec, built
from the held forecast at an instant. The repository's `updateTides`
keeps no such fingerprint; this definition follows the spec's words and
is used only to state claim C2 against the code's behaviour. -/
def specFingerprint (s : HeldState) (now : ℤ) : Option String × Option ℤ × Option ℤ :=
  match s.lastForecast with
  | none => (none, none, none)
  | some f =>
    (some f.station.name,
     ((f.extremes.filter (fun e => decide (now ≤ e.time ∧ e.type = TideType.Low))).head?.map
       (fun e => e.time)),
     ((f.extremes.filter (fun e => decide (now ≤ e.time ∧ e.type = TideType.High))).head?.map
       (fun e => e.time)))

/-! ## Harmonics cache manager (src/datum.ts lines 72-459,
`HarmonicsCache`) -/

/-- `HarmonicsCacheConfig` from src/datum.ts. -/
inductive UpdateFrequency where
  | manual
  | quarterly
  | semiannual
  | annual
deriving DecidableEq

structure HarmonicsCacheConfig where
  autoDownloadRadius : ℚ
  updateFrequency : UpdateFrequency
  minStations : ℕ
  expandRadiusIfNeeded : Bool
  maxRadius : ℚ
deriving DecidableEq

/-- `HarmonicConstituent` from src/datum.ts. -/
structure HarmonicConstituent where
  name : String
  amplitude : ℚ
  phase : ℚ
deriving DecidableEq

/-- `HarmonicStation` from src/datum.ts (the `timezone`/`country`
strings are irrelevant to the verified functions and elided). -/
structure HarmonicStation where
  id : String
  name : String
  lat : ℚ
  lon : ℚ
  offset : ℚ
  constituents : List HarmonicConstituent
deriving DecidableEq

/-- `HarmonicsDatabase` from src/datum.ts (the descriptive
`version`/`info`/`source`/`url`/`extracted` strings are elided). -/
structure HarmonicsDatabase where
  center : GeoPos
  radiusNM : ℚ
  stations : List HarmonicStation
deriving DecidableEq

/-- `CacheMetadata` from src/datum.ts; `lastUpdate` in epoch ms. -/
structure CacheMetadata where
  lastUpdate : ℤ
  center : GeoPos
  radiusNM : ℚ
  stationCount : ℕ
deriving DecidableEq

/-- The `reason` strings of `shouldUpdate`, kept structured so the cited
numbers stay inspectable. -/
inductive UpdateReason where
  | noCache
  | cacheExpired (days : ℤ)
  | vesselMoved (nm : ℚ)
  | tooFewStations (count : ℕ) (radiusNM : ℚ) (needed : ℕ)
  | cacheCurrent
deriving DecidableEq

/-- The `maxDays` computation inside `shouldUpdate`: 365, overridden to
90 for quarterly and 180 for semiannual. -/
def policyMaxDays : UpdateFrequency → ℚ
  | .quarterly => 90
  | .semiannual => 180
  | _ => 365

/-- `HarmonicsCache.shouldUpdate(currentPosition)` (src/datum.ts lines
226-275). `metadata` and `cache` are what `loadMetadata()` and
`loadCache()` return (`none` = missing/unreadable file); `now` is the
current time in epoch ms; `dist` is `geolib.getDistance` in meters
(divided by 1852 for nautical miles). -/
def shouldUpdate (dist : GeoPos → GeoPos → ℚ) (cfg : HarmonicsCacheConfig)
    (metadata : Option CacheMetadata) (cache : Option HarmonicsDatabase)
    (now : ℤ) (pos : GeoPos) : Bool × UpdateReason :=
  match metadata with
  | none => (true, .noCache)
  | some md =>
    let daysSinceUpdate : ℚ := ((now - md.lastUpdate : ℤ) : ℚ) / 86400000
    if cfg.updateFrequency ≠ .manual ∧ policyMaxDays cfg.updateFrequency < daysSinceUpdate then
      (true, .cacheExpired ⌊daysSinceUpdate⌋)
    else
      let distance := dist pos md.center / 1852
      if 300 < distance then (true, .vesselMoved distance)
      else
        match cache with
        | some db =>
          let nearbyStations := db.stations.filter
            (fun st => decide (dist pos ⟨st.lat, st.lon⟩ / 1852 ≤ cfg.autoDownloadRadius))
          if nearbyStations.length < cfg.minStations then
            (true, .tooFewStations nearbyStations.length cfg.autoDownloadRadius cfg.minStations)
          else (false, .cacheCurrent)
        | none => (false, .cacheCurrent)

/-- An entry of the remote station catalog (`fetchAllStations`). -/
structure RawStation where
  id : String
  name : String
  lat : ℚ
  lng : ℚ
deriving DecidableEq

/-- `HarmonicsCache.downloadRegion(center, radiusNM)` (src/datum.ts
lines 280-344). `catalog` is the outcome of `fetchAllStations()`
(`.error` when it throws, which the outer catch turns into `null`);
`fetchStation` models the whole per-station try-block —
`fetchStationHarmonics` + `fetchStationDatum` + `convertStation` —
returning `none` when the fetch threw (caught and skipped) or
`convertStation` returned `null` (missing constituents). A station that
fails contributes nothing and the loop continues with the next one.
When zero catalog stations lie within the radius the function returns
`null`; otherwise it always returns a database holding exactly the
successes, sorted by latitude descending (stable, as JS sort). -/
def downloadRegion (dist : GeoPos → GeoPos → ℚ)
    (catalog : Except String (List RawStation))
    (fetchStation : RawStation → Option HarmonicStation)
    (center : GeoPos) (radiusNM : ℚ) : Option HarmonicsDatabase :=
  match catalog with
  | .error _ => none
  | .ok allStations =>
    let nearbyStations := allStations.filter
      (fun st => decide (dist center ⟨st.lat, st.lng⟩ / 1852 ≤ radiusNM))
    if nearbyStations.isEmpty then none
    else
      let stations := nearbyStations.filterMap fetchStation
      some { center := center, radiusNM := radiusNM,
             stations := List.insertionSort (fun a b => b.lat ≤ a.lat) stations }

/-- The `database && database.stations.length >= this.config.minStations`
test of `updateIfNeeded`. -/
def hasMinStations (db : Option HarmonicsDatabase) (minStations : ℕ) : Bool :=
  match db with
  | some d => decide (minStations ≤ d.stations.length)
  | none => false

/-- The `while (radius <= maxRadius)` retry loop of
`HarmonicsCache.updateIfNeeded` (src/datum.ts lines 359-376). `download`
is `downloadRegion` at a given radius (the center is fixed); `database`
is the mutable variable holding the last download result (initially
`null`). Returns the final value of `database` together with the list of
radii at which a download was attempted, in order. -/
def expandLoop (download : ℚ → Option HarmonicsDatabase)
    (cfg : HarmonicsCacheConfig) (database : Option HarmonicsDatabase)
    (radius : ℚ) : Option HarmonicsDatabase × List ℚ :=
  if radius ≤ cfg.maxRadius then
    if hasMinStations (download radius) cfg.minStations then (download radius, [radius])
    else if cfg.expandRadiusIfNeeded = true ∧ radius < cfg.maxRadius then
      ((expandLoop download cfg (download radius) (radius + 200)).1,
        radius :: (expandLoop download cfg (download radius) (radius + 200)).2)
    else (download radius, [radius])
  else (database, [])
termination_by (⌈(cfg.maxRadius - radius) / 200⌉).toNat
decreasing_by
  rename_i hrec
  have hpos : (0 : ℚ) < (cfg.maxRadius - radius) / 200 := by
    have : (0 : ℚ) < cfg.maxRadius - radius := by
      have := hrec.2
      linarith
    positivity
  have hone : (1 : ℤ) ≤ ⌈(cfg.maxRadius - radius) / 200⌉ := Int.ceil_pos.mpr hpos
  have hstep : (cfg.maxRadius - (radius + 200)) / 200 = (cfg.maxRadius - radius) / 200 - 1 := by
    ring
  have hceil : ⌈(cfg.maxRadius - (radius + 200)) / 200⌉ = ⌈(cfg.maxRadius - radius) / 200⌉ - 1 := by
    rw [hstep]
    exact_mod_cast Int.ceil_sub_int ((cfg.maxRadius - radius) / 200) 1
  rw [hceil]
  omega

/-- `HarmonicsCache.updateIfNeeded(currentPosition)` (src/datum.ts lines
349-385): if `shouldUpdate` says no, return the loaded cache; otherwise
run the radius-expansion download loop starting at
`autoDownloadRadius`; return the downloaded database when one exists,
else fall back to the loaded cache. -/
def updateIfNeeded (dist : GeoPos → GeoPos → ℚ)
    (download : ℚ → Option HarmonicsDatabase) (cfg : HarmonicsCacheConfig)
    (metadata : Option CacheMetadata) (cache : Option HarmonicsDatabase)
    (now : ℤ) (pos : GeoPos) : Option HarmonicsDatabase :=
  let check := shouldUpdate dist cfg metadata cache now pos
  if check.1 = false then cache
  else
    match (expandLoop download cfg none cfg.autoDownloadRadius).1 with
    | some db => some db
    | none => cache

/-! ## Shared helper lemmas -/

/-- A successful `tidePrev` yields a member of the list that is at or
before the query time; it succeeds whenever such a member exists. -/
theorem tidePrev_spec (extremes : List TideExtreme) (t : ℤ)
    (h : ∃ e ∈ extremes, e.time ≤ t) :
    ∃ p, tidePrev extremes t = some p ∧ p ∈ extremes ∧ p.time ≤ t := by
  obtain ⟨e, he, het⟩ := h
  have hmem : e ∈ (sortedByTime extremes).filter (fun h => decide (h.time ≤ t)) := by
    refine List.mem_filter.mpr ⟨?_, by simpa using het⟩
    exact (List.mem_insertionSort _).mpr he
  have hne : (sortedByTime extremes).filter (fun h => decide (h.time ≤ t)) ≠ [] :=
    List.ne_nil_of_mem hmem
  obtain ⟨p, hp⟩ := Option.isSome_iff_exists.mp (List.getLast?_isSome.mpr hne)
  refine ⟨p, hp, ?_, ?_⟩
  · have := List.mem_filter.mp (List.mem_of_getLast?_eq_some hp)
    exact (List.mem_insertionSort _).mp this.1
  · have := List.mem_filter.mp (List.mem_of_getLast?_eq_some hp)
    simpa using this.2

/-- A successful `tideNext` yields a member of the list that is at or
after the query time; it succeeds whenever such a member exists. -/
theorem tideNext_spec (extremes : List TideExtreme) (t : ℤ)
    (h : ∃ e ∈ extremes, t ≤ e.time) :
    ∃ n, tideNext extremes t = some n ∧ n ∈ extremes ∧ t ≤ n.time := by
  obtain ⟨e, he, het⟩ := h
  have hmem : e ∈ (sortedByTime extremes).filter (fun h => decide (t ≤ h.time)) := by
    refine List.mem_filter.mpr ⟨?_, by simpa using het⟩
    exact (List.mem_insertionSort _).mpr he
  have hne : (sortedByTime extremes).filter (fun h => decide (t ≤ h.time)) ≠ [] :=
    List.ne_nil_of_mem hmem
  obtain ⟨x, xs, hcons⟩ := List.exists_cons_of_ne_nil hne
  have hx : x ∈ (sortedByTime extremes).filter (fun h => decide (t ≤ h.time)) := by
    rw [hcons]
    exact List.mem_cons_self x xs
  refine ⟨x, ?_, ?_, ?_⟩
  · show ((sortedByTime extremes).filter (fun h => decide (t ≤ h.time))).head? = some x
    rw [hcons]
    rfl
  · exact (List.mem_insertionSort _).mp (List.mem_filter.mp hx).1
  · simpa using (List.mem_filter.mp hx).2

/-! ## Claim C3 -/

/-- Claim C3: when the per-update forecast fetch raises an error,
`updateForecast` leaves the held `lastForecast` and `preferredStation`
exactly unchanged and converts the error to status reporting. -/
theorem C3_fetch_failure_leaves_state_unchanged
    (dist : GeoPos → GeoPos → ℚ) (sourceTitle : String)
    (stationSwitchThreshold : Option ℚ) (pos : GeoPos) (e : String)
    (s : HeldState) :
    updateForecast dist sourceTitle stationSwitchThreshold pos (.error e) s = (s, .error e) :=
  rfl

/-! ## Claim C1 -/

/-- Claim C1: with a held preferred station and a positive switch
threshold (in meters, i.e. `stationSwitchThreshold * 1000`), the
selector adopts the candidate forecast exactly when
`distanceToCandidate < distanceToPreferred - threshold`, and otherwise
keeps the previously held forecast and preferred station, discarding
the candidate. -/
theorem C1_station_selector_hysteresis
    (dist : GeoPos → GeoPos → ℚ) (sourceTitle : String)
    (stationSwitchThreshold : Option ℚ) (pos : GeoPos)
    (cand : TideForecastResult) (s : HeldState) (preferred : TideStation)
    (hpref : s.preferredStation = some preferred)
    (hth : 0 < (stationSwitchThreshold.getD 10) * 1000) :
    (dist pos cand.station.position <
        dist pos preferred.position - (stationSwitchThreshold.getD 10) * 1000 →
      (updateForecast dist sourceTitle stationSwitchThreshold pos (.ok cand) s).1 =
        { lastForecast := some cand, preferredStation := some cand.station }) ∧
    (¬ dist pos cand.station.position <
        dist pos preferred.position - (stationSwitchThreshold.getD 10) * 1000 →
      (updateForecast dist sourceTitle stationSwitchThreshold pos (.ok cand) s).1 = s) := by
  constructor <;> intro h
  · simp only [updateForecast, hpref, if_pos hth, if_pos h]
  · simp only [updateForecast, hpref, if_pos hth, if_neg h]

/-- Vessel position used by the C1 witness. -/
def c1Pos : GeoPos := ⟨0, 0⟩

/-- Preferred station of the C1 witness. -/
def c1Preferred : TideStation := ⟨"preferred", ⟨1, 0⟩⟩

/-- Candidate forecast of the C1 witness. -/
def c1Candidate : TideForecastResult := ⟨⟨"candidate", ⟨2, 0⟩⟩, []⟩

/-- Held state of the C1 witness. -/
def c1State : HeldState := ⟨none, some c1Preferred⟩

/-- Distance function of the C1 witness, keep case: preferred (latitude
1) at 1000 m, candidate (latitude 2) at 995 m. -/
def c1DistKeep : GeoPos → GeoPos → ℚ :=
  fun _ q => 1000 - 5 * (q.latitude - 1)

/-- Distance function of the C1 witness, switch case: preferred
(latitude 1) at 1000 m, candidate (latitude 2) at 800 m. -/
def c1DistSwitch : GeoPos → GeoPos → ℚ :=
  fun _ q => 1000 - 200 * (q.latitude - 1)

/-- Witness for C1 at the spec's own example: threshold 10 m
(`stationSwitchThreshold = 1/100` km), preferred at 1000 m. The 995 m
candidate is kept out (995 is not below 990); the 800 m candidate is
adopted. -/
theorem C1_station_selector_hysteresis_witness :
    c1State.preferredStation = some c1Preferred ∧
    (0 : ℚ) < ((some (1/100 : ℚ)).getD 10) * 1000 ∧
    (updateForecast c1DistKeep "NOAA" (some (1/100)) c1Pos (.ok c1Candidate) c1State).1 =
      c1State ∧
    (updateForecast c1DistSwitch "NOAA" (some (1/100)) c1Pos (.ok c1Candidate) c1State).1 =
      { lastForecast := some c1Candidate, preferredStation := some c1Candidate.station } := by
  refine ⟨rfl, by norm_num, ?_, ?_⟩
  · refine (C1_station_selector_hysteresis c1DistKeep "NOAA" (some (1/100)) c1Pos
      c1Candidate c1State c1Preferred rfl (by norm_num)).2 ?_
    norm_num [c1DistKeep, c1Candidate, c1Preferred]
  · refine (C1_station_selector_hysteresis c1DistSwitch "NOAA" (some (1/100)) c1Pos
      c1Candidate c1State c1Preferred rfl (by norm_num)).1 ?_
    norm_num [c1DistSwitch, c1Candidate, c1Preferred]

/-! ## Claim C4 -/

/-- Claim C4: when the forecast has Low extremes, `estimateMllwOffset`
returns `|m| + 0.2` when the minimum Low value `m` is negative and `0`
when it is non-negative (`vs.foldl min v` is the minimum of the Low
values `v :: vs`). -/
theorem C4_estimate_offset_formula (f : TideForecastResult) (v : ℚ) (vs : List ℚ)
    (hl : lowValues f = v :: vs) :
    (vs.foldl min v < 0 → estimateMllwOffset f = |vs.foldl min v| + 1/5) ∧
    (0 ≤ vs.foldl min v → estimateMllwOffset f = 0) := by
  constructor <;> intro h
  · simp only [estimateMllwOffset, hl, if_pos h]
  · simp only [estimateMllwOffset, hl, if_neg (not_lt.mpr h)]

/-- Forecast of the C4 witness with a single Low of value `-0.5`. -/
def c4Neg : TideForecastResult := ⟨⟨"s", ⟨0, 0⟩⟩, [⟨0, -(1/2), TideType.Low⟩]⟩

/-- Forecast of the C4 witness with a single Low of value `0.3`. -/
def c4Pos : TideForecastResult := ⟨⟨"s", ⟨0, 0⟩⟩, [⟨0, 3/10, TideType.Low⟩]⟩

/-- Witness for C4 at the spec's examples: lowest Low `-0.5` yields
`0.7`; lowest Low `0.3` yields `0`. -/
theorem C4_estimate_offset_formula_witness :
    lowValues c4Neg = [-(1/2)] ∧ estimateMllwOffset c4Neg = 7/10 ∧
    lowValues c4Pos = [3/10] ∧ estimateMllwOffset c4Pos = 0 := by
  refine ⟨by simp [lowValues, c4Neg], ?_, by simp [lowValues, c4Pos], ?_⟩
  · have h := (C4_estimate_offset_formula c4Neg (-(1/2)) []
      (by simp [lowValues, c4Neg])).1 (by norm_num)
    rw [h, List.foldl_nil, abs_neg, abs_of_pos (show (0:ℚ) < 1/2 by norm_num)]
    norm_num
  · exact (C4_estimate_offset_formula c4Pos (3/10) []
      (by simp [lowValues, c4Pos])).2 (by norm_num)

/-! ## Claim C10 -/

/-- Claim C10: on a forecast with no Low extreme `estimateMllwOffset`
returns exactly 0; it is total and non-negative on every forecast. -/
theorem C10_estimate_offset_total_nonneg :
    (∀ f : TideForecastResult, (∀ e ∈ f.extremes, e.type ≠ TideType.Low) →
      estimateMllwOffset f = 0) ∧
    (∀ f : TideForecastResult, 0 ≤ estimateMllwOffset f) := by
  constructor
  · intro f hf
    have hl : lowValues f = [] := by
      unfold lowValues
      rw [List.filter_eq_nil_iff.mpr (by simpa using hf)]
      rfl
    simp only [estimateMllwOffset, hl]
  · intro f
    rcases hl : lowValues f with _ | ⟨v, vs⟩ <;>
      simp only [estimateMllwOffset, hl]
    · exact le_refl 0
    · split
      · have := abs_nonneg (vs.foldl min v)
        linarith
      · exact le_refl 0

/-! ## Claim C8 -/

/-- Claim C8: with metadata present, a `lastUpdate` younger than the
frequency-policy threshold, a cache center within 300 nautical miles,
and a cached database, `shouldUpdate` still answers `update = true`
with a reason citing the station count whenever fewer than
`minStations` stations lie within `autoDownloadRadius` of the current
position. -/
theorem C8_should_update_station_coverage
    (dist : GeoPos → GeoPos → ℚ) (cfg : HarmonicsCacheConfig)
    (md : CacheMetadata) (db : HarmonicsDatabase) (now : ℤ) (pos : GeoPos)
    (hage : ((now - md.lastUpdate : ℤ) : ℚ) / 86400000 < policyMaxDays cfg.updateFrequency)
    (hdist : dist pos md.center / 1852 ≤ 300)
    (hcount : (db.stations.filter
        (fun st => decide (dist pos ⟨st.lat, st.lon⟩ / 1852 ≤ cfg.autoDownloadRadius))).length <
      cfg.minStations) :
    shouldUpdate dist cfg (some md) (some db) now pos =
      (true, .tooFewStations
        (db.stations.filter
          (fun st => decide (dist pos ⟨st.lat, st.lon⟩ / 1852 ≤ cfg.autoDownloadRadius))).length
        cfg.autoDownloadRadius cfg.minStations) := by
  have h1 : ¬ (cfg.updateFrequency ≠ .manual ∧
      policyMaxDays cfg.updateFrequency < ((now - md.lastUpdate : ℤ) : ℚ) / 86400000) :=
    fun h => absurd h.2 (not_lt.mpr (le_of_lt hage))
  simp only [shouldUpdate, if_neg h1, if_neg (not_lt.mpr hdist), if_pos hcount]

/-- Distance function of several witnesses: everything is at distance
zero. -/
def distZero : GeoPos → GeoPos → ℚ := fun _ _ => 0

/-- Configuration of the C8 witness (the plugin defaults: 500 nm
auto-download radius, quarterly updates, minimum 2 stations, expansion
enabled up to 1000 nm). -/
def c8Cfg : HarmonicsCacheConfig := ⟨500, .quarterly, 2, true, 1000⟩

/-- Fresh metadata of the C8 witness. -/
def c8Md : CacheMetadata := ⟨0, ⟨0, 0⟩, 500, 0⟩

/-- Cached database of the C8 witness: no stations at all. -/
def c8Db : HarmonicsDatabase := ⟨⟨0, 0⟩, 500, []⟩

/-- Witness for C8: fresh cache (0 days old, center at distance 0), yet
0 nearby stations < 2, so the answer is an update citing the count. -/
theorem C8_should_update_station_coverage_witness :
    ((0 - c8Md.lastUpdate : ℤ) : ℚ) / 86400000 < policyMaxDays c8Cfg.updateFrequency ∧
    distZero ⟨0, 0⟩ c8Md.center / 1852 ≤ 300 ∧
    (c8Db.stations.filter
      (fun st => decide (distZero ⟨0, 0⟩ ⟨st.lat, st.lon⟩ / 1852 ≤ c8Cfg.autoDownloadRadius))).length <
      c8Cfg.minStations ∧
    shouldUpdate distZero c8Cfg (some c8Md) (some c8Db) 0 ⟨0, 0⟩ =
      (true, .tooFewStations 0 500 2) := by
  refine ⟨by norm_num [c8Md, c8Cfg, policyMaxDays], by norm_num [distZero, c8Md], ?_, ?_⟩
  · simp [c8Db, c8Cfg]
  · have h := C8_should_update_station_coverage distZero c8Cfg c8Md c8Db 0 ⟨0, 0⟩
      (by norm_num [c8Md, c8Cfg, policyMaxDays])
      (by norm_num [distZero, c8Md])
      (by simp [c8Db, c8Cfg])
    rw [h]
    simp [c8Db, c8Cfg]

/-! ## Claim C6 -/

/-- Catalog of the C6 counterexample: one station at the origin. -/
def c6Catalog : Except String (List RawStation) := .ok [⟨"9450460", "Ketchikan", 0, 0⟩]

/-- Per-station outcome of the C6 counterexample: every station's
harmonics fetch fails (the inner catch skips it). -/
def c6FetchFail : RawStation → Option HarmonicStation := fun _ => none

/-- Counterexample to C6 as stated: one station lies within the radius
and its conversion fails, so zero stations succeed — yet
`downloadRegion` returns a (non-null) database with an empty station
list, not `null`. -/
theorem C6_zero_success_counterexample :
    downloadRegion distZero c6Catalog c6FetchFail ⟨0, 0⟩ 500 =
      some { center := ⟨0, 0⟩, radiusNM := 500, stations := [] } ∧
    downloadRegion distZero c6Catalog c6FetchFail ⟨0, 0⟩ 500 ≠ none := by
  constructor
  · norm_num [downloadRegion, c6Catalog, c6FetchFail, distZero, List.filter_cons,
      List.filterMap_cons, List.insertionSort]
  · intro h
    rw [show (none : Option HarmonicsDatabase) = Option.none from rfl] at h
    have : downloadRegion distZero c6Catalog c6FetchFail ⟨0, 0⟩ 500 =
        some { center := ⟨0, 0⟩, radiusNM := 500, stations := [] } := by
      norm_num [downloadRegion, c6Catalog, c6FetchFail, distZero, List.filter_cons,
        List.filterMap_cons, List.insertionSort]
    rw [this] at h
    exact Option.some_ne_none _ h

/-- Claim C6 as amended: `downloadRegion` returns `null` exactly when
zero catalog stations lie within the radius; when nearby stations
exist, it returns a database whose stations are exactly the
successfully converted ones (sorted by latitude descending) — an
individual station's failure skips only that station and never aborts
the batch, and zero successes yield a database with an empty station
list rather than `null`. -/
theorem C6_download_partial_failure
    (dist : GeoPos → GeoPos → ℚ) (allStations : List RawStation)
    (fetchStation : RawStation → Option HarmonicStation)
    (center : GeoPos) (radiusNM : ℚ) :
    let nearby := allStations.filter
      (fun st => decide (dist center ⟨st.lat, st.lng⟩ / 1852 ≤ radiusNM))
    (nearby = [] →
      downloadRegion dist (.ok allStations) fetchStation center radiusNM = none) ∧
    (nearby ≠ [] →
      downloadRegion dist (.ok allStations) fetchStation center radiusNM =
        some { center := center, radiusNM := radiusNM,
               stations := List.insertionSort (fun a b => b.lat ≤ a.lat)
                 (nearby.filterMap fetchStation) }) := by
  intro nearby
  constructor
  · intro h
    simp only [downloadRegion]
    rw [if_pos (by rw [List.isEmpty_iff]; exact h)]
  · intro h
    simp only [downloadRegion]
    rw [if_neg (by rw [List.isEmpty_iff]; exact h)]

/-! ## Claim C5 -/

/-- The two-extreme list of the spec's `approximateTideHeightAt` test:
Low of 0.0 at `t0 = 0` and High of 2.0 at `t1 = t0 + 6h`
(21600000 ms). -/
def ext5 : List TideExtreme := [⟨0, 0, TideType.Low⟩, ⟨21600000, 2, TideType.High⟩]

/-- Claim C5, settled against the code: at the exact midpoint the
returned height is 1.0 as claimed, but at exactly `t0` and exactly `t1`
the code picks the very same extreme as both bracketing extremes
(`<=`/`>=` filters), computes `progress = 0/0 = NaN` and returns `NaN`
— not the claimed 0.0 and 2.0. -/
theorem C5_height_at_extremes_and_midpoint :
    approximateTideHeightAt ext5 0 = .nan ∧
    approximateTideHeightAt ext5 21600000 = .nan ∧
    approximateTideHeightAt ext5 10800000 = .val 1 := by
  refine ⟨rfl, rfl, ?_⟩
  show (if (21600000 - 0 : ℤ) - 0 = 0 then HeightResult.nan
    else HeightResult.val (jsToFixed3 (interpolate ((0:ℚ) : ℝ) ((2:ℚ) : ℝ)
      (easeSine (((10800000 - 0 : ℤ) : ℝ) / (((21600000 : ℤ) - 0 : ℤ) : ℝ)))))) = .val 1
  rw [if_neg (by norm_num)]
  have harg : (((10800000 - 0 : ℤ) : ℝ) / (((21600000 : ℤ) - 0 : ℤ) : ℝ)) = 1/2 := by
    norm_num
  rw [harg]
  have hease : easeSine (1/2) = 1/2 := by
    unfold easeSine
    rw [show (1/2 : ℝ) * Real.pi = Real.pi / 2 by ring, Real.cos_pi_div_two]
    norm_num
  rw [hease]
  have hint : interpolate ((0:ℚ) : ℝ) ((2:ℚ) : ℝ) (1/2) = 1 := by
    unfold interpolate
    push_cast
    ring
  rw [hint]
  have hfix : jsToFixed3 1 = 1 := by
    unfold jsToFixed3
    norm_num
  rw [hfix]

/-! ## Claim C7 -/

/-- Behaviour of the radius-expansion loop, proved by induction on the
number of remaining 200 nm steps: the attempted radii go up in steps of
exactly 200 from the start radius, every non-final attempt fell short of
`minStations`, the final attempt either met the minimum or could not be
expanded without exceeding `maxRadius`, and the number of attempts is
bounded by the step count. -/
theorem expandLoop_attempts
    (download : ℚ → Option HarmonicsDatabase) (cfg : HarmonicsCacheConfig)
    (hexp : cfg.expandRadiusIfNeeded = true) :
    ∀ (nfuel : ℕ) (database : Option HarmonicsDatabase) (r0 : ℚ),
      r0 ≤ cfg.maxRadius → (⌈(cfg.maxRadius - r0) / 200⌉).toNat = nfuel →
      (expandLoop download cfg database r0).2 ≠ [] ∧
      (∀ i : ℕ, ∀ hi : i < (expandLoop download cfg database r0).2.length,
        (expandLoop download cfg database r0).2.get ⟨i, hi⟩ = r0 + 200 * i) ∧
      (∀ i : ℕ, ∀ hi : i + 1 < (expandLoop download cfg database r0).2.length,
        hasMinStations (download ((expandLoop download cfg database r0).2.get
          ⟨i, Nat.lt_of_succ_lt hi⟩)) cfg.minStations = false) ∧
      (∀ l : ℚ, (expandLoop download cfg database r0).2.getLast? = some l →
        hasMinStations (download l) cfg.minStations = true ∨ cfg.maxRadius < l + 200) ∧
      (expandLoop download cfg database r0).2.length ≤ nfuel + 1 := by
  intro nfuel
  induction nfuel with
  | zero =>
    intro database r0 hr0 hfuel
    have hmax : cfg.maxRadius ≤ r0 := by
      by_contra hc
      push_neg at hc
      have hpos : (0 : ℚ) < (cfg.maxRadius - r0) / 200 := by
        have : (0 : ℚ) < cfg.maxRadius - r0 := by linarith
        positivity
      have hone : (1 : ℤ) ≤ ⌈(cfg.maxRadius - r0) / 200⌉ := Int.ceil_pos.mpr hpos
      omega
    have heq : r0 = cfg.maxRadius := le_antisymm hr0 hmax
    rw [expandLoop, if_pos hr0]
    by_cases hok : hasMinStations (download r0) cfg.minStations = true
    · rw [if_pos hok]
      refine ⟨by simp, ?_, ?_, ?_, by simp⟩
      · intro i hi
        simp only [List.length_cons, List.length_nil] at hi
        have hz : i = 0 := by omega
        subst hz
        simp
      · intro i hi
        simp only [List.length_cons, List.length_nil] at hi
        omega
      · intro l hl
        simp only [List.getLast?_singleton, Option.some.injEq] at hl
        subst hl
        exact Or.inl hok
    · have hnotand : ¬ (cfg.expandRadiusIfNeeded = true ∧ r0 < cfg.maxRadius) := by
        rintro ⟨-, hlt⟩
        rw [heq] at hlt
        exact lt_irrefl _ hlt
      rw [if_neg hok, if_neg hnotand]
      refine ⟨by simp, ?_, ?_, ?_, by simp⟩
      · intro i hi
        simp only [List.length_cons, List.length_nil] at hi
        have hz : i = 0 := by omega
        subst hz
        simp
      · intro i hi
        simp only [List.length_cons, List.length_nil] at hi
        omega
      · intro l hl
        simp only [List.getLast?_singleton, Option.some.injEq] at hl
        subst hl
        right
        rw [heq]
        linarith
  | succ m ih =>
    intro database r0 hr0 hfuel
    rw [expandLoop, if_pos hr0]
    by_cases hok : hasMinStations (download r0) cfg.minStations = true
    · rw [if_pos hok]
      refine ⟨by simp, ?_, ?_, ?_, by simp⟩
      · intro i hi
        simp only [List.length_cons, List.length_nil] at hi
        have hz : i = 0 := by omega
        subst hz
        simp
      · intro i hi
        simp only [List.length_cons, List.length_nil] at hi
        omega
      · intro l hl
        simp only [List.getLast?_singleton, Option.some.injEq] at hl
        subst hl
        exact Or.inl hok
    · have hlt : r0 < cfg.maxRadius := by
        by_contra hc
        push_neg at hc
        have hnp : (cfg.maxRadius - r0) / 200 ≤ 0 := by
          apply div_nonpos_of_nonpos_of_nonneg <;> linarith
        have h0 : ⌈(cfg.maxRadius - r0) / 200⌉ ≤ 0 := by
          rw [Int.ceil_le]
          simpa using hnp
        omega
      rw [if_neg hok, if_pos ⟨hexp, hlt⟩]
      by_cases hnext : r0 + 200 ≤ cfg.maxRadius
      · have hfuel2 : (⌈(cfg.maxRadius - (r0 + 200)) / 200⌉).toNat = m := by
          have hceil : ⌈(cfg.maxRadius - (r0 + 200)) / 200⌉ =
              ⌈(cfg.maxRadius - r0) / 200⌉ - 1 := by
            rw [show (cfg.maxRadius - (r0 + 200)) / 200 =
              (cfg.maxRadius - r0) / 200 - 1 by ring]
            exact_mod_cast Int.ceil_sub_int ((cfg.maxRadius - r0) / 200) 1
          have hpos : (0 : ℚ) < (cfg.maxRadius - r0) / 200 := by
            have : (0 : ℚ) < cfg.maxRadius - r0 := by linarith
            positivity
          have hone : (1 : ℤ) ≤ ⌈(cfg.maxRadius - r0) / 200⌉ := Int.ceil_pos.mpr hpos
          omega
        obtain ⟨ih1, ih2, ih3, ih4, ih5⟩ := ih (download r0) (r0 + 200) hnext hfuel2
        refine ⟨by simp, ?_, ?_, ?_, ?_⟩
        · intro i hi
          match i with
          | 0 => simp
          | (j+1) =>
            have hj : j < (expandLoop download cfg (download r0) (r0 + 200)).2.length := by
              simpa using hi
            have := ih2 j hj
            simp only [List.get_cons_succ]
            rw [this]
            push_cast
            ring
        · intro i hi
          match i with
          | 0 =>
            simp only [List.get]
            simpa using hok
          | (j+1) =>
            have hj : j + 1 < (expandLoop download cfg (download r0) (r0 + 200)).2.length := by
              simpa using hi
            have := ih3 j hj
            simp only [List.get_cons_succ]
            exact this
        · intro l hl
          obtain ⟨b, tl, hbt⟩ := List.exists_cons_of_ne_nil ih1
          rw [hbt] at hl
          rw [List.getLast?_cons_cons] at hl
          rw [← hbt] at hl
          exact ih4 l hl
        · simp only [List.length_cons]
          omega
      · have hinner : expandLoop download cfg (download r0) (r0 + 200) = (download r0, []) := by
          rw [expandLoop, if_neg hnext]
        rw [hinner]
        refine ⟨by simp, ?_, ?_, ?_, by simp⟩
        · intro i hi
          simp only [List.length_cons, List.length_nil] at hi
          have hz : i = 0 := by omega
          subst hz
          simp
        · intro i hi
          simp only [List.length_cons, List.length_nil] at hi
          omega
        · intro l hl
          simp only [List.getLast?_singleton, Option.some.injEq] at hl
          subst hl
          right
          push_neg at hnext
          exact hnext

/-- Claim C7: with radius expansion enabled, `minStations = 2` and a
start radius within `maxRadius`, the retry loop attempts radii that grow
by exactly 200 nm per attempt, stops as soon as a download yields at
least 2 stations or the radius would exceed `maxRadius`, and performs at
most `ceil((maxRadius - r0)/200) + 1` download attempts — in particular
it terminates even when every download returns 0 stations. -/
theorem C7_radius_expansion_bounded
    (download : ℚ → Option HarmonicsDatabase) (cfg : HarmonicsCacheConfig)
    (hexp : cfg.expandRadiusIfNeeded = true) (hmin : cfg.minStations = 2)
    (r0 : ℚ) (hr0 : r0 ≤ cfg.maxRadius) :
    let attempts := (expandLoop download cfg none r0).2
    attempts ≠ [] ∧
    (∀ i : ℕ, ∀ hi : i < attempts.length, attempts.get ⟨i, hi⟩ = r0 + 200 * i) ∧
    (∀ i : ℕ, ∀ hi : i + 1 < attempts.length,
      hasMinStations (download (attempts.get ⟨i, Nat.lt_of_succ_lt hi⟩)) 2 = false) ∧
    (∀ l : ℚ, attempts.getLast? = some l →
      hasMinStations (download l) 2 = true ∨ cfg.maxRadius < l + 200) ∧
    attempts.length ≤ (⌈(cfg.maxRadius - r0) / 200⌉).toNat + 1 := by
  intro attempts
  have h := expandLoop_attempts download cfg hexp
    (⌈(cfg.maxRadius - r0) / 200⌉).toNat none r0 hr0 rfl
  rw [hmin] at h
  exact h

/-- Download function of the C7 witness: every download returns no
stations at all. -/
def download0 : ℚ → Option HarmonicsDatabase := fun _ => none

/-- Configuration of the C7 witness: the plugin defaults (start at
500 nm, expansion enabled, minimum 2, maximum 1000 nm). -/
def c7Cfg : HarmonicsCacheConfig := ⟨500, .quarterly, 2, true, 1000⟩

/-- Witness for C7: starting at 500 nm with every download empty, the
loop makes finitely many attempts with the stated properties. -/
theorem C7_radius_expansion_bounded_witness :
    c7Cfg.expandRadiusIfNeeded = true ∧ c7Cfg.minStations = 2 ∧
    (500 : ℚ) ≤ c7Cfg.maxRadius ∧
    (let attempts := (expandLoop download0 c7Cfg none 500).2
     attempts ≠ [] ∧
     (∀ i : ℕ, ∀ hi : i < attempts.length, attempts.get ⟨i, hi⟩ = 500 + 200 * i) ∧
     (∀ i : ℕ, ∀ hi : i + 1 < attempts.length,
       hasMinStations (download0 (attempts.get ⟨i, Nat.lt_of_succ_lt hi⟩)) 2 = false) ∧
     (∀ l : ℚ, attempts.getLast? = some l →
       hasMinStations (download0 l) 2 = true ∨ c7Cfg.maxRadius < l + 200) ∧
     attempts.length ≤ (⌈(c7Cfg.maxRadius - 500) / 200⌉).toNat + 1) :=
  ⟨rfl, rfl, by norm_num [c7Cfg],
    C7_radius_expansion_bounded download0 c7Cfg rfl rfl 500 (by norm_num [c7Cfg])⟩

/-! ## Claim C9 -/

/-- The easing weight always stays within `[0, 1]` (the cosine stays
within `[-1, 1]`). -/
theorem easeSine_bounds (p : ℝ) : 0 ≤ easeSine p ∧ easeSine p ≤ 1 := by
  unfold easeSine
  have h1 := Real.cos_le_one (p * Real.pi)
  have h2 := Real.neg_one_le_cos (p * Real.pi)
  constructor <;> linarith

/-- Interpolating with a weight in `[0, 1]` stays between the two
endpoints. -/
theorem interpolate_bounds (a b w : ℝ) (h0 : 0 ≤ w) (h1 : w ≤ 1) :
    min a b ≤ interpolate a b w ∧ interpolate a b w ≤ max a b := by
  unfold interpolate
  rcases le_total a b with h | h
  · rw [min_eq_left h, max_eq_right h]
    constructor <;> nlinarith
  · rw [min_eq_right h, max_eq_left h]
    constructor <;> nlinarith

/-- Rounding to 3 decimal places moves a value by at most half a
millimeter. -/
theorem jsToFixed3_bounds (x : ℝ) :
    x - 1/2000 ≤ ((jsToFixed3 x : ℚ) : ℝ) ∧ ((jsToFixed3 x : ℚ) : ℝ) ≤ x + 1/2000 := by
  unfold jsToFixed3
  have h1 : ((⌊1000 * x + 1/2⌋ : ℤ) : ℝ) ≤ 1000 * x + 1/2 := Int.floor_le _
  have h2 : 1000 * x + 1/2 < ((⌊1000 * x + 1/2⌋ : ℤ) : ℝ) + 1 := Int.lt_floor_add_one _
  push_cast
  constructor <;> linarith

/-- Claim C9 as amended: when some extreme lies at or before the query
time, some extreme lies strictly after it, and no extreme lies exactly
at it (the amendment: with an extreme exactly at the query time the
code's `>=` filter picks that same extreme as both brackets, the
interval degenerates and the result is `NaN`), the returned value is a
number that lies between the two bracketing extreme values up to the
final rounding to 3 decimal places (±1/2000). -/
theorem C9_interpolated_height_bounded (extremes : List TideExtreme) (t : ℤ)
    (h1 : ∃ e ∈ extremes, e.time ≤ t)
    (h2 : ∃ e ∈ extremes, t < e.time)
    (hne : ∀ e ∈ extremes, e.time ≠ t) :
    ∃ p n q, tidePrev extremes t = some p ∧ tideNext extremes t = some n ∧
      approximateTideHeightAt extremes t = .val q ∧
      min p.value n.value - 1/2000 ≤ q ∧ q ≤ max p.value n.value + 1/2000 := by
  obtain ⟨p, hp, hpmem, hpt⟩ := tidePrev_spec extremes t h1
  obtain ⟨e2, he2, he2t⟩ := h2
  obtain ⟨n, hn, hnmem, hnt⟩ := tideNext_spec extremes t ⟨e2, he2, le_of_lt he2t⟩
  have hnlt : t < n.time := lt_of_le_of_ne hnt (Ne.symm (hne n hnmem))
  have hden : n.time - p.time ≠ 0 := by omega
  have happ : approximateTideHeightAt extremes t =
      (if n.time - p.time = 0 then HeightResult.nan
       else .val (jsToFixed3 (interpolate (p.value : ℝ) (n.value : ℝ)
         (easeSine (((t - p.time : ℤ) : ℝ) / ((n.time - p.time : ℤ) : ℝ)))))) := by
    unfold approximateTideHeightAt
    rw [hp, hn]
  rw [if_neg hden] at happ
  have hw := easeSine_bounds (((t - p.time : ℤ) : ℝ) / ((n.time - p.time : ℤ) : ℝ))
  have hb := interpolate_bounds (p.value : ℝ) (n.value : ℝ) _ hw.1 hw.2
  have hf := jsToFixed3_bounds (interpolate (p.value : ℝ) (n.value : ℝ)
    (easeSine (((t - p.time : ℤ) : ℝ) / ((n.time - p.time : ℤ) : ℝ))))
  have h2000 : ((1/2000 : ℚ) : ℝ) = 1/2000 := by norm_num
  set X := interpolate (p.value : ℝ) (n.value : ℝ)
    (easeSine (((t - p.time : ℤ) : ℝ) / ((n.time - p.time : ℤ) : ℝ))) with hX
  refine ⟨p, n, _, hp, hn, happ, ?_, ?_⟩
  · have key : ((min p.value n.value - 1/2000 : ℚ) : ℝ) ≤ ((jsToFixed3 X : ℚ) : ℝ) := by
      rw [Rat.cast_sub, Rat.cast_min, h2000]
      linarith [hb.1, hf.1]
    exact Rat.cast_le.mp key
  · have key : ((jsToFixed3 X : ℚ) : ℝ) ≤ ((max p.value n.value + 1/2000 : ℚ) : ℝ) := by
      rw [Rat.cast_add, Rat.cast_max, h2000]
      linarith [hb.2, hf.2]
    exact Rat.cast_le.mp key

/-- Extremes of the C9 counterexample: a Low exactly at the query time
0 and a High strictly after it. -/
def ext9 : List TideExtreme := [⟨0, 1, TideType.Low⟩, ⟨100, 2, TideType.High⟩]

/-- Counterexample to C9 as stated: at query time 0 a latest extreme
at/before (the Low at 0) and an earliest extreme strictly after (the
High at 100) both exist, yet the code picks the Low at 0 as both
brackets — the bracketing interval has length zero, not positive — and
returns `NaN` instead of a value between 1 and 2. -/
theorem C9_coincident_extreme_counterexample :
    (∃ e ∈ ext9, e.time ≤ 0) ∧ (∃ e ∈ ext9, 0 < e.time) ∧
    approximateTideHeightAt ext9 0 = .nan := by
  refine ⟨?_, ?_, rfl⟩
  · exact ⟨⟨0, 1, TideType.Low⟩, by simp [ext9], le_refl 0⟩
  · exact ⟨⟨100, 2, TideType.High⟩, by simp [ext9], by norm_num⟩

/-- Extremes of the C9 witness: a Low at 0 and a High at 2, queried at
time 1. -/
def ext9w : List TideExtreme := [⟨0, 0, TideType.Low⟩, ⟨2, 2, TideType.High⟩]

/-- Witness for the amended C9 at a concrete bracketed query time. -/
theorem C9_interpolated_height_bounded_witness :
    (∃ e ∈ ext9w, e.time ≤ 1) ∧ (∃ e ∈ ext9w, 1 < e.time) ∧ (∀ e ∈ ext9w, e.time ≠ 1) ∧
    (∃ p n q, tidePrev ext9w 1 = some p ∧ tideNext ext9w 1 = some n ∧
      approximateTideHeightAt ext9w 1 = .val q ∧
      min p.value n.value - 1/2000 ≤ q ∧ q ≤ max p.value n.value + 1/2000) := by
  have h1 : ∃ e ∈ ext9w, e.time ≤ 1 := ⟨⟨0, 0, TideType.Low⟩, by simp [ext9w], by norm_num⟩
  have h2 : ∃ e ∈ ext9w, 1 < e.time := ⟨⟨2, 2, TideType.High⟩, by simp [ext9w], by norm_num⟩
  have h3 : ∀ e ∈ ext9w, e.time ≠ 1 := by
    intro e he
    simp only [ext9w, List.mem_cons, List.mem_singleton] at he
    rcases he with rfl | rfl | h
    · norm_num
    · norm_num
    · simp at h
  exact ⟨h1, h2, h3, C9_interpolated_height_bounded ext9w 1 h1 h2 h3⟩

/-! ## Claim C2 -/

/-- One-step unfolding of `updateTides` when a forecast is held. -/
theorem updateTides_some (f : TideForecastResult) (ps : Option TideStation) (now : ℤ) :
    updateTides ⟨some f, ps⟩ now =
      (match approximateTideHeightAt f.extremes now with
       | .err m => .threw m
       | .nan => .emitted ⟨now, f.station.name, none,
           (f.extremes.filter (fun e => decide (now ≤ e.time))).take 2⟩
       | .val q => .emitted ⟨now, f.station.name, some q,
           (f.extremes.filter (fun e => decide (now ≤ e.time))).take 2⟩) := rfl

/-- The held forecast of the C2 counterexample: its only Low is in the
past, its High is hours away, so the fingerprint
`(stationName, nextLowTime, nextHighTime)` is identical on consecutive
one-minute ticks. -/
def c2Forecast : TideForecastResult :=
  ⟨⟨"Station A", ⟨0, 0⟩⟩, [⟨-3600000, 1, TideType.Low⟩, ⟨21600000, 2, TideType.High⟩]⟩

/-- Held state of the C2 counterexample. -/
def c2State : HeldState := ⟨some c2Forecast, some c2Forecast.station⟩

/-- Counterexample to C2 as stated: on two consecutive emitter ticks
(at 0 ms and 60000 ms) the fingerprint `(stationName, nextLowTime,
nextHighTime)` is unchanged, yet `updateTides` emits a delta on both
ticks — the code keeps no last-published fingerprint and never
suppresses a publish. -/
theorem C2_unchanged_fingerprint_counterexample :
    specFingerprint c2State 0 = specFingerprint c2State 60000 ∧
    (∃ d, updateTides c2State 0 = .emitted d) ∧
    (∃ d, updateTides c2State 60000 = .emitted d) := by
  refine ⟨rfl, ⟨_, rfl⟩, ⟨_, rfl⟩⟩

/-- Claim C2 as amended: `updateTides` keeps no change-detection
fingerprint and publishes unconditionally — it emits a delta on every
tick at which a forecast is held and the forecast's extremes bracket
the tick instant, regardless of whether the fingerprint changed since
the previous tick; it emits nothing only when no forecast is held (or
when the interpolation throws because the held horizon no longer
brackets the instant). -/
theorem C2_publishes_every_tick :
    (∀ (s : HeldState) (now : ℤ), s.lastForecast = none → updateTides s now = .noForecast) ∧
    (∀ (s : HeldState) (f : TideForecastResult) (now : ℤ), s.lastForecast = some f →
      (∃ e ∈ f.extremes, e.time ≤ now) → (∃ e ∈ f.extremes, now ≤ e.time) →
      ∃ d, updateTides s now = .emitted d) := by
  constructor
  · rintro ⟨lf, ps⟩ now h
    cases lf
    · rfl
    · exact absurd h (by simp)
  · rintro ⟨lf, ps⟩ f now h h1 h2
    have hlf : lf = some f := h
    subst hlf
    obtain ⟨p, hp, -, -⟩ := tidePrev_spec f.extremes now h1
    obtain ⟨n, hn, -, -⟩ := tideNext_spec f.extremes now h2
    have happ : approximateTideHeightAt f.extremes now =
        (if n.time - p.time = 0 then HeightResult.nan
         else .val (jsToFixed3 (interpolate (p.value : ℝ) (n.value : ℝ)
           (easeSine (((now - p.time : ℤ) : ℝ) / ((n.time - p.time : ℤ) : ℝ)))))) := by
      unfold approximateTideHeightAt
      rw [hp, hn]
    by_cases hden : n.time - p.time = 0
    · rw [if_pos hden] at happ
      exact ⟨_, by rw [updateTides_some, happ]⟩
    · rw [if_neg hden] at happ
      exact ⟨_, by rw [updateTides_some, happ]⟩

end SignalkTides
